import Mathlib

/-!
Verification development for the mcp-aggregator upstream aggregation and
tool-routing engine.  The Python sources are shallowly embedded: Python
`dict` / `OrderedDict` objects become insertion-ordered association lists,
`datetime` timestamps become rational numbers of seconds, raising an
exception becomes returning `Except.error`, and the nondeterministic
environment (spawned processes, HTTP health checks, remote tool listings)
is passed in as explicit oracle arguments.
-/

namespace MCPAgg

/-! ## Python dictionaries

A Python `dict` (and `collections.OrderedDict`) preserves insertion order;
assignment to an existing key updates the value in place keeping its
position, assignment to a fresh key appends at the end. -/

/-- A Python `dict` with string keys, as an insertion-ordered association list. -/
abbrev Dict (α : Type) := List (String × α)

/-- `k in d` -/
def dictContains {α : Type} (d : Dict α) (k : String) : Bool :=
  d.any (fun p => p.1 == k)

/-- `d.get(k)` / `d[k]` lookup (first entry with the key). -/
def dictGet {α : Type} (d : Dict α) (k : String) : Option α :=
  (d.find? (fun p => p.1 == k)).map (fun p => p.2)

/-- `d[k] = v`: update in place when the key is present, append otherwise. -/
def dictSet {α : Type} (d : Dict α) (k : String) (v : α) : Dict α :=
  if dictContains d k then d.map (fun p => if p.1 == k then (k, v) else p)
  else d ++ [(k, v)]

/-- `del d[k]` (all call sites guard with `in`, so absence is a no-op). -/
def dictDel {α : Type} (d : Dict α) (k : String) : Dict α :=
  d.filter (fun p => !(p.1 == k))

/-- Mutate the value stored at `k` in place (no-op when `k` is absent),
as the tracking manager's `if request_id in self.requests: tracker.<field> = ...`. -/
def dictUpdate {α : Type} (d : Dict α) (k : String) (f : α → α) : Dict α :=
  d.map (fun p => if p.1 == k then (p.1, f p.2) else p)

/-- The keys of a dict, in insertion order. -/
def dictKeys {α : Type} (d : Dict α) : List String :=
  d.map (fun p => p.1)

/-! ## Exceptions (src/exceptions.py) -/

/-- The exception taxonomy of `src/exceptions.py` that the claims mention
(`ServerConfigError`, `ToolDiscoveryError`, `ToolExecutionError`). -/
inductive MCPError where
  | serverConfig (msg : String)
  | toolDiscovery (msg : String)
  | toolExecution (msg : String)
deriving DecidableEq, Repr

/-! ## Upstream server configuration schemas (src/upstream/schemas.py) -/

structure HTTPServerConfig where
  url : String
  auth_token : Option String := none
deriving DecidableEq, Repr

structure StdioServerConfig where
  command : String
  args : List String
  env : Dict String := []
  working_directory : Option String := none
deriving DecidableEq, Repr

structure ServiceServerConfig where
  command : String
  args : List String
  port : Nat
  health_check_path : String := "/mcp"
  startup_timeout : Nat := 30
  env : Dict String := []
  working_directory : Option String := none
deriving DecidableEq, Repr

/-- A cached tool descriptor (`{"name", "description", "inputSchema"}` in
`discover_tools`).  The JSON schema payload is opaque to the manager and is
passed through verbatim, so it is embedded as an opaque wrapper. -/
structure InputSchema where
  raw : String
deriving DecidableEq, Repr

structure ToolDescriptor where
  name : String
  description : String
  inputSchema : InputSchema
deriving DecidableEq, Repr

/-- The resolved client configuration built by `_get_client_config`. -/
inductive ClientConfig where
  | http (url : String) (auth_token : Option String)
  | stdio (command : String) (args : List String) (env : Dict String)
      (working_directory : Option String)
deriving DecidableEq, Repr

/-- How an OS process reacts to `terminate()` / `wait(timeout=5)`:
it terminates in time, hangs (raising `subprocess.TimeoutExpired`, after
which the code calls `kill()`), or raises some other exception. -/
inductive TermBehavior where
  | ok
  | hangs
  | raises (msg : String)
deriving DecidableEq, Repr

/-- A `subprocess.Popen` handle owned by the manager, abstracted to its pid
and its reaction to termination. -/
structure ProcHandle where
  pid : Nat
  term : TermBehavior
deriving DecidableEq, Repr

/-- Outcome of one terminate-wait-kill attempt. -/
inductive StopResult where
  | terminated
  | killed
  | errored (msg : String)
deriving DecidableEq, Repr

/-- `process.terminate(); process.wait(timeout=5)` with `kill()` on
`TimeoutExpired` and a swallowed log on any other exception, as in
`remove_server` and `cleanup_all_processes`. -/
def stopProcess (p : ProcHandle) : StopResult :=
  match p.term with
  | .ok => .terminated
  | .hangs => .killed
  | .raises m => .errored m

/-! ## UpstreamManager state (src/upstream/manager.py) -/

structure UpstreamState where
  http_servers : Dict HTTPServerConfig := []
  stdio_servers : Dict StdioServerConfig := []
  service_servers : Dict ServiceServerConfig := []
  clients : Dict ClientConfig := []
  tools_cache : Dict (List ToolDescriptor) := []
  background_processes : Dict ProcHandle := []
deriving DecidableEq, Repr

/-- The duplicate-name check shared by all three `add_*_server` methods:
`name in self.http_servers or name in self.stdio_servers or name in self.service_servers`. -/
def serverExists (s : UpstreamState) (name : String) : Bool :=
  dictContains s.http_servers name || dictContains s.stdio_servers name ||
    dictContains s.service_servers name

/-- `add_http_server` (manager.py:253-259).  Quotes around the name in the
original message are elided. -/
def add_http_server (s : UpstreamState) (name url : String)
    (auth_token : Option String) : Except MCPError UpstreamState :=
  if serverExists s name then
    .error (.serverConfig ("Server " ++ name ++ " already exists"))
  else
    .ok { s with http_servers :=
            dictSet s.http_servers name { url := url, auth_token := auth_token } }

/-- `add_stdio_server` (manager.py:261-274). -/
def add_stdio_server (s : UpstreamState) (name command : String)
    (args : List String) (env : Dict String) (working_directory : Option String) :
    Except MCPError UpstreamState :=
  if serverExists s name then
    .error (.serverConfig ("Server " ++ name ++ " already exists"))
  else
    let cfg : StdioServerConfig :=
      { command := command, args := args, env := env,
        working_directory := working_directory }
    .ok { s with stdio_servers := dictSet s.stdio_servers name cfg }

/-- `add_service_server` (manager.py:276-298): duplicate-name check, then a
scan of the existing service entries (in insertion order) for a port clash. -/
def add_service_server (s : UpstreamState) (name command : String)
    (args : List String) (port : Nat) (health_check_path : String)
    (startup_timeout : Nat) (env : Dict String)
    (working_directory : Option String) : Except MCPError UpstreamState :=
  if serverExists s name then
    .error (.serverConfig ("Server " ++ name ++ " already exists"))
  else
    match s.service_servers.find? (fun p => p.2.port == port) with
    | some existing =>
        .error (.serverConfig ("Port " ++ toString port ++ " is already used by service "
          ++ existing.1))
    | none =>
        let cfg : ServiceServerConfig :=
          { command := command, args := args, port := port,
            health_check_path := health_check_path,
            startup_timeout := startup_timeout, env := env,
            working_directory := working_directory }
        .ok { s with service_servers := dictSet s.service_servers name cfg }

/-- `remove_server` (manager.py:300-326): terminate-wait-kill the background
process when present (errors swallowed), then delete the name from the
bookkeeping map and from all five config/cache maps.  Returns the new state
together with the outcome of the stop attempt, if any. -/
def remove_server (s : UpstreamState) (name : String) :
    UpstreamState × Option StopResult :=
  let stopped := (dictGet s.background_processes name).map stopProcess
  ({ s with
      background_processes := dictDel s.background_processes name,
      http_servers := dictDel s.http_servers name,
      stdio_servers := dictDel s.stdio_servers name,
      service_servers := dictDel s.service_servers name,
      clients := dictDel s.clients name,
      tools_cache := dictDel s.tools_cache name }, stopped)

/-- `cleanup_all_processes` (manager.py:328-340): terminate-wait-kill each
tracked process in turn, swallowing per-process errors.  The method never
deletes anything from `background_processes`, so the state is returned
unchanged; the list records the stop attempt made for every entry. -/
def cleanup_all_processes (s : UpstreamState) :
    UpstreamState × List (String × StopResult) :=
  (s, s.background_processes.map (fun p => (p.1, stopProcess p.2)))

/-! ## Registry operation sequences

The registry claims quantify over arbitrary sequences of add/remove calls.
A raised `ServerConfigError` leaves the manager state untouched (the Python
methods raise before any dict mutation), so applying a failing operation
keeps the previous state. -/

inductive RegOp where
  | addHttp (name url : String) (auth_token : Option String)
  | addStdio (name command : String) (args : List String) (env : Dict String)
      (working_directory : Option String)
  | addService (name command : String) (args : List String) (port : Nat)
      (health_check_path : String) (startup_timeout : Nat) (env : Dict String)
      (working_directory : Option String)
  | remove (name : String)

def applyOp (s : UpstreamState) (op : RegOp) : UpstreamState :=
  match op with
  | .addHttp n u t =>
      match add_http_server s n u t with
      | .ok s2 => s2
      | .error _ => s
  | .addStdio n c a e w =>
      match add_stdio_server s n c a e w with
      | .ok s2 => s2
      | .error _ => s
  | .addService n c a p hp st e w =>
      match add_service_server s n c a p hp st e w with
      | .ok s2 => s2
      | .error _ => s
  | .remove n => (remove_server s n).1

def applyOps (s : UpstreamState) (ops : List RegOp) : UpstreamState :=
  ops.foldl applyOp s

/-- All registered backend names, across the three config maps. -/
def backendNames (s : UpstreamState) : List String :=
  dictKeys s.http_servers ++ dictKeys s.stdio_servers ++ dictKeys s.service_servers

/-- The ports of all registered service backends. -/
def servicePorts (s : UpstreamState) : List Nat :=
  s.service_servers.map (fun p => p.2.port)

/-- The registry invariant of the spec: a backend name is unique across all
three config maps simultaneously, and a port is unique across all service
backends. -/
def RegInvariant (s : UpstreamState) : Prop :=
  (backendNames s).Nodup ∧ (servicePorts s).Nodup

instance (s : UpstreamState) : Decidable (RegInvariant s) := by
  unfold RegInvariant; infer_instance

/-- `UpstreamManager.__init__` + `_load_defaults`, with the default
configurations of src/upstream/defaults.py. -/
def initialState : UpstreamState :=
  { http_servers := [("gofastmcp", { url := "https://gofastmcp.com/mcp" })],
    stdio_servers :=
      [("context7", { command := "npx", args := ["-y", "@upstash/context7-mcp"] }),
       ("filesystem",
        { command := "npx",
          args := ["-y", "@modelcontextprotocol/server-filesystem", "."],
          working_directory := some "." }),
       ("shell",
        { command := "uvx", args := ["mcp-shell-server"],
          env := [("ALLOW_COMMANDS", "ls,cat,pwd,grep,wc,touch,find")] })],
    service_servers :=
      [("serena",
        { command := "uvx",
          args := ["--from", "git+https://github.com/oraios/serena", "serena",
                   "start-mcp-server", "--transport", "streamable-http",
                   "--port", "9121", "--context", "agent", "--mode",
                   "no-onboarding"],
          port := 9121 })] }

/-! ## Request tracking (src/tracking/models.py, src/tracking/manager.py)

`datetime` timestamps are embedded as integer numbers of seconds since an
epoch, so that `timedelta(hours=h)` is `3600 * h` and
`(completed_at - started_at).total_seconds() * 1000` is exact arithmetic
(durations in milliseconds live in `ℚ`, as the Python side stores floats).
Argument and result payloads (`Any` in Python) are a type parameter `V`.
`uuid.uuid4()` is embedded as an explicitly supplied request id, which the
freshness hypotheses of the theorems require to be new. -/

inductive RequestStatus where
  | pending
  | in_progress
  | completed
  | failed
deriving DecidableEq, Repr

structure RequestTracker (V : Type) where
  request_id : String
  server_name : String
  tool_name : String
  arguments : Dict V
  status : RequestStatus
  created_at : ℤ
  started_at : Option ℤ := none
  completed_at : Option ℤ := none
  result : Option V := none
  error : Option String := none
  duration_ms : Option ℚ := none
  client_ip : Option String := none
  session_id : Option String := none
deriving DecidableEq

structure TrackState (V : Type) where
  requests : Dict (RequestTracker V)
  max_size : Nat := 1000
  retention_hours : ℤ := 24
deriving DecidableEq

/-- `_cleanup_old_requests` (tracking/manager.py:135-152): first delete every
tracker whose `created_at` is older than the retention cutoff, then, while
the size exceeds `max_size`, pop the oldest-inserted entry
(`popitem(last=False)`); the while loop removes exactly
`length - max_size` entries from the front, i.e. `List.drop`. -/
def cleanup_old_requests {V : Type} (s : TrackState V) (now : ℤ) : TrackState V :=
  let cutoff := now - 3600 * s.retention_hours
  let kept := s.requests.filter (fun p => !(decide (p.2.created_at < cutoff)))
  { s with requests := kept.drop (kept.length - s.max_size) }

/-- The tracker literal built at the top of `create_request`
(`RequestTracker(request_id=..., status=PENDING, ...)`). -/
def newTracker {V : Type} (request_id server_name tool_name : String)
    (arguments : Dict V) (client_ip session_id : Option String) (now : ℤ) :
    RequestTracker V :=
  { request_id := request_id, server_name := server_name, tool_name := tool_name,
    arguments := arguments, status := .pending, created_at := now,
    client_ip := client_ip, session_id := session_id }

/-- `create_request` (tracking/manager.py:21-46): insert a fresh `pending`
tracker, then run housekeeping. -/
def create_request {V : Type} (s : TrackState V) (request_id server_name tool_name : String)
    (arguments : Dict V) (client_ip session_id : Option String) (now : ℤ) :
    TrackState V :=
  let tracker : RequestTracker V :=
    newTracker request_id server_name tool_name arguments client_ip session_id now
  cleanup_old_requests { s with requests := dictSet s.requests request_id tracker } now

/-- Repeated `create_request` calls with the given (fresh) request ids, all
at the same clock reading; the backend/tool names and arguments are fixed
dummies, as eviction depends only on ids and times. -/
def createMany {V : Type} (s : TrackState V) (ids : List String) (now : ℤ) :
    TrackState V :=
  ids.foldl (fun acc id => create_request acc id "srv" "tool" [] none none now) s

/-- `RequestTrackingManager(max_size=m, retention_hours=r)`: an empty store. -/
def emptyTrack (V : Type) (m : Nat) (r : ℤ) : TrackState V :=
  { requests := [], max_size := m, retention_hours := r }

/-- `start_request` (tracking/manager.py:48-54). -/
def start_request {V : Type} (s : TrackState V) (request_id : String) (now : ℤ) :
    TrackState V :=
  { s with requests := dictUpdate s.requests request_id (fun t =>
      { t with status := .in_progress, started_at := some now }) }

/-- `complete_request` (tracking/manager.py:56-68): `duration_ms` is set only
when `started_at` was set. -/
def complete_request {V : Type} (s : TrackState V) (request_id : String) (result : V)
    (now : ℤ) : TrackState V :=
  { s with requests := dictUpdate s.requests request_id (fun t =>
      let t1 := { t with status := .completed, completed_at := some now,
                         result := some result }
      match t.started_at with
      | some st => { t1 with duration_ms := some (((now - st : ℤ) : ℚ) * 1000) }
      | none => t1) }

/-- `fail_request` (tracking/manager.py:70-82). -/
def fail_request {V : Type} (s : TrackState V) (request_id : String) (error : String)
    (now : ℤ) : TrackState V :=
  { s with requests := dictUpdate s.requests request_id (fun t =>
      let t1 := { t with status := .failed, completed_at := some now,
                         error := some error }
      match t.started_at with
      | some st => { t1 with duration_ms := some (((now - st : ℤ) : ℚ) * 1000) }
      | none => t1) }

/-- `get_request` (tracking/manager.py:84-86). -/
def get_request {V : Type} (s : TrackState V) (request_id : String) :
    Option (RequestTracker V) :=
  dictGet s.requests request_id

/-- `round(x, 2)`.  Mathlib `round` rounds half away from even where Python
floats round half to even; the two agree except at exact ties, which no
claim depends on. -/
def round2 (q : ℚ) : ℚ := (round (q * 100) : ℤ) / 100

structure TrackStatistics where
  total_requests : Nat
  by_status : RequestStatus → Nat
  by_server : Dict Nat
  average_duration_ms : ℚ
  completed_requests : Nat

/-- The accumulator of the statistics loop (tracking/manager.py:115-123). -/
structure StatsAcc where
  by_status : RequestStatus → Nat
  by_server : Dict Nat
  total_duration : ℚ
  completed_count : Nat

/-- One iteration of the `for tracker in self.requests.values()` loop:
count by status and by server, and accumulate duration and count only for
trackers whose status is `COMPLETED` (not `FAILED`) and whose `duration_ms`
is set. -/
def statsStep {V : Type} (acc : StatsAcc) (tracker : RequestTracker V) : StatsAcc :=
  let acc1 : StatsAcc :=
    { acc with
        by_status := fun st =>
          if st = tracker.status then acc.by_status st + 1 else acc.by_status st,
        by_server := dictSet acc.by_server tracker.server_name
          ((dictGet acc.by_server tracker.server_name).getD 0 + 1) }
  if tracker.status = .completed then
    match tracker.duration_ms with
    | some d =>
        { acc1 with total_duration := acc1.total_duration + d,
                    completed_count := acc1.completed_count + 1 }
    | none => acc1
  else acc1

/-- `get_statistics` (tracking/manager.py:107-133). -/
def get_statistics {V : Type} (s : TrackState V) : TrackStatistics :=
  let acc := s.requests.foldl (fun a p => statsStep a p.2)
    { by_status := fun _ => 0, by_server := [], total_duration := 0,
      completed_count := 0 }
  let avg : ℚ :=
    if acc.completed_count > 0 then acc.total_duration / acc.completed_count else 0
  { total_requests := s.requests.length,
    by_status := acc.by_status,
    by_server := acc.by_server,
    average_duration_ms := round2 avg,
    completed_requests := acc.completed_count }

/-- The trackers that the average is taken over: status `completed` (failed
excluded) with a recorded duration. -/
def completedWithDuration {V : Type} (s : TrackState V) : List (RequestTracker V) :=
  (s.requests.map (fun p => p.2)).filter
    (fun t => decide (t.status = .completed) && t.duration_ms.isSome)

/-- Sum of the recorded durations of `completedWithDuration`. -/
def completedDurationSum {V : Type} (s : TrackState V) : ℚ :=
  ((completedWithDuration s).map (fun t => t.duration_ms.getD 0)).sum

/-! ## Call result extraction (manager.py:236-251) -/

/-- The value of a content block's `text` attribute: a string, or present
but not a string (the `isinstance(text_value, str)` check fails). -/
inductive TextAttr where
  | str (s : String)
  | nonStr
deriving DecidableEq, Repr

/-- A content block; `text = none` means the block has no `text` attribute
(`hasattr(content_block, 'text')` is false). -/
structure ContentBlock where
  text : Option TextAttr
deriving DecidableEq, Repr

/-- The result object returned by the client library's `call_tool`:
a structured data payload (possibly `None`) and a list of content blocks.
The payload type is a parameter `D`. -/
structure CallToolResult (D : Type) where
  data : Option D
  content : List ContentBlock
deriving DecidableEq, Repr

/-- What `call_tool` returns to its caller: the structured payload as-is,
a joined text, or Python `None` (the "no value" marker, distinct from an
error). -/
inductive ToolValue (D : Type) where
  | fromData (d : D)
  | fromText (s : String)
  | noValue
deriving DecidableEq, Repr

/-- The text of every block whose `text` attribute exists and is literally
a string, in order (the `hasattr`/`isinstance` filtering loop building
`text_parts`). -/
def textParts (blocks : List ContentBlock) : List String :=
  blocks.filterMap (fun b =>
    match b.text with
    | some (.str s) => some s
    | _ => none)

/-- The extraction at the end of `call_tool` (manager.py:240-251):
data payload first; else, if content blocks are present (`elif
result.content:` — an empty list is falsy), the qualifying texts joined by
a blank line, or `None` when no block qualifies; else `None`. -/
def extract_result {D : Type} (r : CallToolResult D) : ToolValue D :=
  match r.data with
  | some d => .fromData d
  | none =>
    if r.content.isEmpty then .noValue
    else
      let parts := textParts r.content
      if parts.isEmpty then .noValue
      else .fromText (String.intercalate "\n\n" parts)

/-! ## Token resolution and tool discovery (utils.py, manager.py:133-206) -/

/-- `resolve_token` (src/upstream/utils.py): `if not token_or_env` catches
both `None` and the empty string; a `$NAME` reference reads the ambient
environment (embedded as an explicit dict) and returns whatever
`os.getenv` yields — a missing variable is non-fatal and yields no token. -/
def resolve_token (osEnv : Dict String) (token_or_env : Option String) :
    Option String :=
  match token_or_env with
  | none => none
  | some tok =>
    if tok = "" then none
    else if tok.startsWith "$" then dictGet osEnv (tok.drop 1)
    else some tok

/-- `_get_client_config` (manager.py:133-160): http servers first, then
service servers (resolved to localhost HTTP at the service port), then
stdio servers; unknown names raise `ServerConfigError`. -/
def get_client_config (osEnv : Dict String) (s : UpstreamState) (server : String) :
    Except MCPError ClientConfig :=
  match dictGet s.http_servers server with
  | some c => .ok (.http c.url (resolve_token osEnv c.auth_token))
  | none =>
    match dictGet s.service_servers server with
    | some c => .ok (.http ("http://localhost:" ++ toString c.port ++ "/mcp") none)
    | none =>
      match dictGet s.stdio_servers server with
      | some c => .ok (.stdio c.command c.args c.env c.working_directory)
      | none => .error (.serverConfig ("Unknown server: " ++ server))

/-- A tool as reported by the remote `list_tools` call. -/
structure RemoteTool where
  name : String
  description : Option String
  inputSchema : InputSchema
deriving DecidableEq, Repr

/-- `tool.description or "No description"`: Python `or` also replaces the
empty string. -/
def descriptionOrDefault (d : Option String) : String :=
  match d with
  | some s => if s = "" then "No description" else s
  | none => "No description"

/-- The message of an `MCPError`, as interpolated into a wrapping message. -/
def errMsg : MCPError → String
  | .serverConfig m => m
  | .toolDiscovery m => m
  | .toolExecution m => m

/-- `discover_tools` (manager.py:162-206).  The remote interaction
(connect + `list_tools`, including transport failures) is an oracle
argument `remote`.  Any exception — from `_get_client_config` or from the
session — is caught and re-raised as `ToolDiscoveryError`; the tool cache
and the active client config are written only after the whole listing has
succeeded. -/
def discover_tools (osEnv : Dict String) (s : UpstreamState) (server : String)
    (remote : Except String (List RemoteTool)) :
    Except MCPError (List ToolDescriptor) × UpstreamState :=
  match get_client_config osEnv s server with
  | .error e =>
      (.error (.toolDiscovery ("Failed to discover tools from " ++ server ++ ": "
        ++ errMsg e)), s)
  | .ok config =>
    match remote with
    | .error e =>
        (.error (.toolDiscovery ("Failed to discover tools from " ++ server ++ ": "
          ++ e)), s)
    | .ok tools =>
      let tools_list := tools.map (fun t =>
        ({ name := t.name, description := descriptionOrDefault t.description,
           inputSchema := t.inputSchema } : ToolDescriptor))
      (.ok tools_list,
       { s with tools_cache := dictSet s.tools_cache server tools_list,
                clients := dictSet s.clients server config })

/-! ## Service startup (manager.py:80-131)

The polling loop of `_start_service` sleeps a fixed 1 second per iteration,
so wall-clock time is discretized to one observation per iteration: the
oracle `obs i` reports, for the `i`-th iteration, whether `process.poll()`
is non-`None` and what the health-check GET yields (`none` standing for a
`requests.RequestException`, `some code` for a response with that status
code). -/

structure HealthObs where
  exited : Bool
  http : Option Nat
deriving DecidableEq, Repr

inductive StartOutcome where
  | ready
  | died
  | timedOut
deriving DecidableEq, Repr

/-- The `while time.time() - start_time < config.startup_timeout` loop:
per iteration, a non-`None` `poll()` returns `False` at once (the buffered
output is captured and logged); otherwise a GET response with status `< 500`
returns `True`; a connection failure or a `>= 500` status is swallowed and
the loop sleeps 1s and retries. -/
def pollLoop (obs : Nat → HealthObs) : Nat → Nat → StartOutcome
  | _, 0 => .timedOut
  | i, remaining + 1 =>
    let o := obs i
    if o.exited then .died
    else
      match o.http with
      | some code => if code < 500 then .ready else pollLoop obs (i + 1) remaining
      | none => pollLoop obs (i + 1) remaining

/-- Whether the `i`-th iteration stops the polling loop. -/
def triggers (o : HealthObs) : Bool :=
  o.exited ||
    (match o.http with
     | some code => decide (code < 500)
     | none => false)

/-- `_start_service` (manager.py:80-131), restricted to the supervision of
an already-spawned process `p`: the poll loop runs for `startup_timeout`
iterations; on deadline expiry the process is terminated, waited on for up
to 5s and force-killed if still alive (`stopProcess`), and `False` is
returned; a process death returns `False` immediately with no termination
attempt. -/
def start_service (p : ProcHandle) (startup_timeout : Nat) (obs : Nat → HealthObs) :
    Bool × Option StopResult :=
  match pollLoop obs 0 startup_timeout with
  | .ready => (true, none)
  | .died => (false, none)
  | .timedOut => (false, some (stopProcess p))

/-! ## The tracking-coupled call router -/

/-- Modelled from the spec: the tracking-coupled Call Router — `call_tool`
with request tracking and `ToolExecutionError` wrapping — is absent from
the snapshot of `src/upstream/manager.py`, although `src/api/routes.py`
and `tests/test_tracking/test_tracking.py` reference `upstream.tracking`
and a `call_tool(server, tool, arguments, client_ip, session_id)`
signature.  Following §4.4 of the spec: fail with `ConfigError` when the
backend has no active client config; create a `pending` tracker; move it
to `in_progress` just before dispatch; on success complete it with the
result and measured duration; on any exception fail it with the error
message and measured duration and re-raise as `ToolExecutionError`.  The
remote invocation is the oracle `remote`; `t0`, `t1`, `t2` are the clock
readings at creation, dispatch and settlement. -/
def call_tool_tracked {V : Type} (clients : Dict ClientConfig) (ts : TrackState V)
    (server tool : String) (arguments : Dict V) (client_ip session_id : Option String)
    (request_id : String) (t0 t1 t2 : ℤ) (remote : Except String V) :
    Except MCPError V × TrackState V :=
  if dictContains clients server then
    let ts1 := create_request ts request_id server tool arguments client_ip session_id t0
    let ts2 := start_request ts1 request_id t1
    match remote with
    | .ok v => (.ok v, complete_request ts2 request_id v t2)
    | .error e =>
        (.error (.toolExecution ("Tool execution failed: " ++ e)),
         fail_request ts2 request_id e t2)
  else
    (.error (.serverConfig ("Unknown server: " ++ server)), ts)

/-! ## Concrete example states used by witnesses and counterexamples -/

/-- A two-entry tracking store over `ℕ`-valued payloads: tracker `"r1"` has
already completed (terminal) and tracker `"r2"` is live (`in_progress`). -/
def twoTrackState : TrackState ℕ :=
  { requests :=
      [("r1",
        { request_id := "r1", server_name := "s1", tool_name := "t1",
          arguments := [], status := .completed, created_at := 0,
          started_at := some 1, completed_at := some 2,
          result := some 42, duration_ms := some 100 }),
       ("r2",
        { request_id := "r2", server_name := "s2", tool_name := "t2",
          arguments := [], status := .in_progress, created_at := 0,
          started_at := some 1 })],
    max_size := 10, retention_hours := 24 }

/-- A one-entry tracking store over `ℕ`-valued payloads: a single tracker
`"r1"` that has already completed with a 100ms duration. -/
def witnessTrackState : TrackState ℕ :=
  { requests :=
      [("r1",
        { request_id := "r1", server_name := "s1", tool_name := "t1",
          arguments := [], status := .completed, created_at := 0,
          started_at := some 1, completed_at := some 2,
          result := some 42, duration_ms := some 100 })],
    max_size := 10, retention_hours := 24 }

/-- A manager state holding one tracked background process (and nothing
else), as after a successful service start. -/
def oneProcState : UpstreamState :=
  { service_servers :=
      [("svc1", { command := "cmd", args := [], port := 9000 })],
    background_processes := [("svc1", { pid := 4242, term := .ok })] }

/-- The spec's statistics example: one `completed` tracker with a 100ms
duration and one `failed` tracker with a 50ms duration. -/
def statsExampleState : TrackState ℕ :=
  { requests :=
      [("c1",
        { request_id := "c1", server_name := "s1", tool_name := "t1",
          arguments := [], status := .completed, created_at := 0,
          started_at := some 1, completed_at := some 2,
          result := some 1, duration_ms := some 100 }),
       ("f1",
        { request_id := "f1", server_name := "s2", tool_name := "t2",
          arguments := [], status := .failed, created_at := 0,
          started_at := some 1, completed_at := some 2,
          error := some "boom", duration_ms := some 50 })],
    max_size := 10, retention_hours := 24 }

/-- A call result with no structured payload and four content blocks: a
string text, a block without a `text` attribute, a non-string `text`, and a
second string text. -/
def exampleCallResult : CallToolResult ℕ :=
  { data := none,
    content := [{ text := some (.str "x") }, { text := none },
                { text := some .nonStr }, { text := some (.str "y") }] }

/-! ## Lemmas about the dictionary model -/

theorem dictKeys_cons {α : Type} (p : String × α) (d : Dict α) :
    dictKeys (p :: d) = p.1 :: dictKeys d := rfl

theorem dictGet_cons {α : Type} (p : String × α) (d : Dict α) (k : String) :
    dictGet (p :: d) k = if p.1 = k then some p.2 else dictGet d k := by
  by_cases h : p.1 = k
  · simp [dictGet, List.find?_cons_of_pos _ (show (p.1 == k) = true by simp [h]), h]
  · simp [dictGet, List.find?_cons_of_neg _ (show ¬(p.1 == k) = true by simp [h]), h]

theorem dictUpdate_cons {α : Type} (p : String × α) (d : Dict α) (k : String)
    (f : α → α) :
    dictUpdate (p :: d) k f =
      (if p.1 = k then (p.1, f p.2) else p) :: dictUpdate d k f := by
  by_cases h : p.1 = k <;> simp [dictUpdate, h]

theorem dictContains_iff {α : Type} (d : Dict α) (k : String) :
    dictContains d k = true ↔ k ∈ dictKeys d := by
  induction d with
  | nil => simp [dictContains, dictKeys]
  | cons p rest ih =>
    rw [dictKeys_cons]
    simp only [dictContains, List.any_cons, Bool.or_eq_true, List.mem_cons] at ih ⊢
    constructor
    · rintro (he | hr)
      · have hpk : p.1 = k := by simpa using he
        exact Or.inl hpk.symm
      · exact Or.inr (ih.mp hr)
    · rintro (he | hr)
      · have hpk : p.1 = k := he.symm
        exact Or.inl (by simpa using hpk)
      · exact Or.inr (ih.mpr hr)

theorem dictContains_eq_false {α : Type} (d : Dict α) (k : String) :
    dictContains d k = false ↔ k ∉ dictKeys d := by
  rw [← Bool.not_eq_true, not_iff_not]
  exact dictContains_iff d k

theorem dictSet_eq_append {α : Type} {d : Dict α} {k : String} (v : α)
    (h : k ∉ dictKeys d) : dictSet d k v = d ++ [(k, v)] := by
  rw [dictSet, if_neg]
  rw [Bool.not_eq_true, dictContains_eq_false]
  exact h

theorem dictKeys_append {α : Type} (d e : Dict α) :
    dictKeys (d ++ e) = dictKeys d ++ dictKeys e := by
  simp [dictKeys]

theorem dictKeys_drop {α : Type} (d : Dict α) (n : Nat) :
    dictKeys (d.drop n) = (dictKeys d).drop n := by
  simp [dictKeys, List.map_drop]

theorem dictKeys_length {α : Type} (d : Dict α) :
    (dictKeys d).length = d.length := by
  simp [dictKeys]

theorem dictDel_sublist {α : Type} (d : Dict α) (k : String) :
    (dictDel d k).Sublist d :=
  List.filter_sublist d

theorem dictKeys_dictDel_sublist {α : Type} (d : Dict α) (k : String) :
    (dictKeys (dictDel d k)).Sublist (dictKeys d) :=
  (dictDel_sublist d k).map (fun p : String × α => p.1)

theorem dictGet_dictUpdate_self {α : Type} (d : Dict α) (k : String) (f : α → α) :
    dictGet (dictUpdate d k f) k = (dictGet d k).map f := by
  induction d with
  | nil => rfl
  | cons p rest ih =>
    rw [dictUpdate_cons]
    by_cases h : p.1 = k
    · rw [if_pos h, dictGet_cons, dictGet_cons, if_pos h, if_pos h]
      rfl
    · rw [if_neg h, dictGet_cons, dictGet_cons, if_neg h, if_neg h, ih]

theorem dictGet_dictUpdate_ne {α : Type} (d : Dict α) {k k2 : String} (f : α → α)
    (h : k2 ≠ k) : dictGet (dictUpdate d k f) k2 = dictGet d k2 := by
  induction d with
  | nil => rfl
  | cons p rest ih =>
    rw [dictUpdate_cons]
    by_cases h1 : p.1 = k
    · have h2 : ¬p.1 = k2 := by
        rw [h1]
        exact fun he => h he.symm
      rw [if_pos h1, dictGet_cons, dictGet_cons, if_neg h2, if_neg h2, ih]
    · by_cases h2 : p.1 = k2
      · rw [if_neg h1, dictGet_cons, dictGet_cons, if_pos h2, if_pos h2]
      · rw [if_neg h1, dictGet_cons, dictGet_cons, if_neg h2, if_neg h2, ih]

theorem dictUpdate_of_not_mem {α : Type} {d : Dict α} {k : String} (f : α → α)
    (h : k ∉ dictKeys d) : dictUpdate d k f = d := by
  induction d with
  | nil => rfl
  | cons p rest ih =>
    rw [dictKeys_cons] at h
    have h1 : ¬p.1 = k := fun he => h (he ▸ List.mem_cons_self _ _)
    have h2 : k ∉ dictKeys rest := fun hm => h (List.mem_cons_of_mem _ hm)
    rw [dictUpdate_cons, if_neg h1, ih h2]

theorem dictGet_append_right {α : Type} {d : Dict α} (e : Dict α) {k : String}
    (h : k ∉ dictKeys d) : dictGet (d ++ e) k = dictGet e k := by
  induction d with
  | nil => rfl
  | cons p rest ih =>
    rw [dictKeys_cons] at h
    have h1 : ¬p.1 = k := fun he => h (he ▸ List.mem_cons_self _ _)
    have h2 : k ∉ dictKeys rest := fun hm => h (List.mem_cons_of_mem _ hm)
    rw [List.cons_append, dictGet_cons, if_neg h1, ih h2]

theorem dictGet_singleton {α : Type} (k : String) (v : α) :
    dictGet [(k, v)] k = some v := by
  rw [dictGet_cons]
  simp

theorem dictGet_eq_some_of_mem {α : Type} {d : Dict α} {k : String} {v : α}
    (hmem : (k, v) ∈ d) (hnd : (dictKeys d).Nodup) : dictGet d k = some v := by
  induction d with
  | nil => cases hmem
  | cons p rest ih =>
    rw [dictKeys_cons, List.nodup_cons] at hnd
    rcases List.mem_cons.mp hmem with h | h
    · rw [dictGet_cons, ← h]
      simp
    · have hk : k ∈ dictKeys rest := List.mem_map_of_mem (fun q => q.1) h
      have hp : ¬p.1 = k := fun he => hnd.1 (he ▸ hk)
      rw [dictGet_cons, if_neg hp]
      exact ih h hnd.2

theorem dictGet_mem {α : Type} {d : Dict α} {k : String} {v : α}
    (h : dictGet d k = some v) : (k, v) ∈ d := by
  induction d with
  | nil => simp [dictGet] at h
  | cons p rest ih =>
    rw [dictGet_cons] at h
    by_cases hp : p.1 = k
    · rw [if_pos hp] at h
      obtain ⟨a, b⟩ := p
      obtain rfl : a = k := hp
      obtain rfl : b = v := Option.some_injective _ h
      exact List.mem_cons_self _ _
    · rw [if_neg hp] at h
      exact List.mem_cons_of_mem _ (ih h)

theorem dictGet_eq_none {α : Type} {d : Dict α} {k : String}
    (h : k ∉ dictKeys d) : dictGet d k = none := by
  induction d with
  | nil => rfl
  | cons p rest ih =>
    rw [dictKeys_cons] at h
    have h1 : ¬p.1 = k := fun he => h (he ▸ List.mem_cons_self _ _)
    have h2 : k ∉ dictKeys rest := fun hm => h (List.mem_cons_of_mem _ hm)
    rw [dictGet_cons, if_neg h1, ih h2]

/-! ## The registry invariant (claim C1) -/

theorem nodup_of_perm_cons {α : Type} {l lp : List α} {x : α}
    (hp : lp.Perm (x :: l)) (hn : l.Nodup) (hx : x ∉ l) : lp.Nodup :=
  hp.nodup_iff.mpr (List.nodup_cons.mpr ⟨hx, hn⟩)

theorem serverExists_eq_false_iff {s : UpstreamState} {name : String} :
    serverExists s name = false ↔ name ∉ backendNames s := by
  rw [serverExists, backendNames]
  simp [dictContains_eq_false, List.mem_append, not_or]
  tauto

/-- A successful `add_http_server` keeps the registry invariant. -/
theorem regInvariant_addHttp {s : UpstreamState} {name : String}
    (h : RegInvariant s) (hex : serverExists s name = false)
    (url : String) (tok : Option String) (s2 : UpstreamState)
    (hok : add_http_server s name url tok = .ok s2) : RegInvariant s2 := by
  have hn : name ∉ backendNames s := serverExists_eq_false_iff.mp hex
  rw [add_http_server, if_neg (by simp [hex])] at hok
  obtain rfl : _ = s2 := congrArg (fun e => match e with | .ok v => v | .error _ => s)
    hok
  have hfresh : name ∉ dictKeys s.http_servers := fun hm =>
    hn (by rw [backendNames]; exact List.mem_append_left _ (List.mem_append_left _ hm))
  constructor
  · show (backendNames _).Nodup
    rw [backendNames]
    simp only [dictSet_eq_append _ hfresh, dictKeys_append]
    rw [List.append_assoc (dictKeys s.http_servers ++ _)]
    have hkeys : dictKeys [(name, ({ url := url, auth_token := tok } : HTTPServerConfig))]
        = [name] := rfl
    rw [hkeys]
    refine nodup_of_perm_cons
      ((List.perm_append_singleton name _).append_right _) ?_ ?_
    · have := h.1
      rw [backendNames, List.append_assoc] at this
      exact this
    · rw [backendNames] at hn
      simp only [List.append_eq, List.mem_append, not_or] at hn ⊢
      tauto
  · show (servicePorts _).Nodup
    exact h.2

/-- A successful `add_stdio_server` keeps the registry invariant. -/
theorem regInvariant_addStdio {s : UpstreamState} {name : String}
    (h : RegInvariant s) (hex : serverExists s name = false)
    (command : String) (args : List String) (env : Dict String)
    (wd : Option String) (s2 : UpstreamState)
    (hok : add_stdio_server s name command args env wd = .ok s2) :
    RegInvariant s2 := by
  have hn : name ∉ backendNames s := serverExists_eq_false_iff.mp hex
  rw [add_stdio_server, if_neg (by simp [hex])] at hok
  obtain rfl : _ = s2 := congrArg (fun e => match e with | .ok v => v | .error _ => s)
    hok
  have hfresh : name ∉ dictKeys s.stdio_servers := fun hm =>
    hn (by
      rw [backendNames]
      exact List.mem_append_left _ (List.mem_append_right _ hm))
  constructor
  · show (backendNames _).Nodup
    rw [backendNames]
    simp only [dictSet_eq_append _ hfresh, dictKeys_append]
    have hkeys : dictKeys [(name,
        ({ command := command, args := args, env := env,
           working_directory := wd } : StdioServerConfig))] = [name] := rfl
    rw [hkeys]
    have hperm :
        ((dictKeys s.http_servers ++ (dictKeys s.stdio_servers ++ [name])) ++
          dictKeys s.service_servers).Perm
        (name :: ((dictKeys s.http_servers ++ dictKeys s.stdio_servers) ++
          dictKeys s.service_servers)) := by
      refine List.Perm.trans
        (((List.perm_append_singleton name _).append_left
            (dictKeys s.http_servers)).append_right _) ?_
      exact (List.perm_middle).append_right _
    refine nodup_of_perm_cons hperm h.1 ?_
    rw [backendNames] at hn
    exact hn
  · show (servicePorts _).Nodup
    exact h.2

/-- A successful `add_service_server` keeps the registry invariant. -/
theorem regInvariant_addService {s : UpstreamState} {name : String}
    (h : RegInvariant s) (hex : serverExists s name = false)
    (command : String) (args : List String) (port : Nat) (hcp : String)
    (sto : Nat) (env : Dict String) (wd : Option String) (s2 : UpstreamState)
    (hok : add_service_server s name command args port hcp sto env wd = .ok s2) :
    RegInvariant s2 := by
  have hn : name ∉ backendNames s := serverExists_eq_false_iff.mp hex
  rw [add_service_server, if_neg (by simp [hex])] at hok
  rcases hfind : s.service_servers.find? (fun p => p.2.port == port) with _ | ex
  case some =>
    rw [hfind] at hok
    exact absurd hok (by simp)
  case none =>
  rw [hfind] at hok
  obtain rfl : _ = s2 := congrArg (fun e => match e with | .ok v => v | .error _ => s)
    hok
  have hfresh : name ∉ dictKeys s.service_servers := fun hm =>
    hn (by rw [backendNames]; exact List.mem_append_right _ hm)
  have hport : port ∉ servicePorts s := by
    intro hm
    rw [servicePorts, List.mem_map] at hm
    obtain ⟨p, hp, hpe⟩ := hm
    have := List.find?_eq_none.mp hfind p hp
    simp [hpe] at this
  constructor
  · show (backendNames _).Nodup
    rw [backendNames]
    simp only [dictSet_eq_append _ hfresh, dictKeys_append]
    have hkeys : dictKeys [(name,
        ({ command := command, args := args, port := port,
           health_check_path := hcp, startup_timeout := sto, env := env,
           working_directory := wd } : ServiceServerConfig))] = [name] := rfl
    rw [hkeys, ← List.append_assoc]
    refine nodup_of_perm_cons (List.perm_append_singleton name _) ?_ ?_
    · have := h.1
      rw [backendNames] at this
      exact this
    · rw [backendNames] at hn
      exact hn
  · show (servicePorts _).Nodup
    rw [servicePorts]
    simp only [dictSet_eq_append _ hfresh, List.map_append]
    refine nodup_of_perm_cons (List.perm_append_singleton port _) ?_ ?_
    · have := h.2
      rw [servicePorts] at this
      exact this
    · rw [servicePorts] at hport
      exact hport

/-- `remove_server` keeps the registry invariant (the three config maps only
lose entries). -/
theorem regInvariant_remove {s : UpstreamState} (h : RegInvariant s)
    (name : String) : RegInvariant (remove_server s name).1 := by
  constructor
  · refine List.Nodup.sublist ?_ h.1
    rw [remove_server, backendNames, backendNames]
    exact ((dictKeys_dictDel_sublist _ name).append
      (dictKeys_dictDel_sublist _ name)).append (dictKeys_dictDel_sublist _ name)
  · refine List.Nodup.sublist ?_ h.2
    rw [remove_server, servicePorts, servicePorts]
    exact (dictDel_sublist _ name).map _

/-- Every single registry operation keeps the invariant. -/
theorem regInvariant_applyOp {s : UpstreamState} (h : RegInvariant s) (op : RegOp) :
    RegInvariant (applyOp s op) := by
  cases op with
  | addHttp n u t =>
    rw [applyOp]
    rcases hex : serverExists s n with _ | _
    · rcases hok : add_http_server s n u t with s2 | s2
      · simp only [hok]
        exact h
      · simp only [hok]
        exact regInvariant_addHttp h hex u t s2 hok
    · rw [add_http_server, if_pos (by simp [hex])]
      exact h
  | addStdio n c a e w =>
    rw [applyOp]
    rcases hex : serverExists s n with _ | _
    · rcases hok : add_stdio_server s n c a e w with s2 | s2
      · simp only [hok]
        exact h
      · simp only [hok]
        exact regInvariant_addStdio h hex c a e w s2 hok
    · rw [add_stdio_server, if_pos (by simp [hex])]
      exact h
  | addService n c a p hp sto e w =>
    rw [applyOp]
    rcases hex : serverExists s n with _ | _
    · rcases hok : add_service_server s n c a p hp sto e w with s2 | s2
      · simp only [hok]
        exact h
      · simp only [hok]
        exact regInvariant_addService h hex c a p hp sto e w s2 hok
    · rw [add_service_server, if_pos (by simp [hex])]
      exact h
  | remove n => exact regInvariant_remove h n

theorem regInvariant_applyOps {s : UpstreamState} (h : RegInvariant s)
    (ops : List RegOp) : RegInvariant (applyOps s ops) := by
  induction ops generalizing s with
  | nil => exact h
  | cons op rest ih => exact ih (regInvariant_applyOp h op)

theorem serverExists_eq_true_of_mem {s : UpstreamState} {name : String}
    (h : name ∈ backendNames s) : serverExists s name = true := by
  rcases he : serverExists s name with _ | _
  · exact absurd h (serverExists_eq_false_iff.mp he)
  · rfl

/-- C1: over every sequence of addHttp/addStdio/addService/remove operations
the registry invariant holds — no two registered backends share a name
across the three config maps and no two service backends share a port — and
any add whose name is already present in any map (or, for addService,
whose port is already bound) fails with a `ServerConfigError` and leaves
the manager state, in particular all three config maps, exactly as it was. -/
theorem claim_registry_unique_and_atomic_failure
    (init : UpstreamState) (hinit : RegInvariant init) (ops : List RegOp) :
    RegInvariant (applyOps init ops) ∧
    (∀ t : UpstreamState, ∀ name url tok, name ∈ backendNames t →
      add_http_server t name url tok =
        .error (.serverConfig ("Server " ++ name ++ " already exists")) ∧
      applyOp t (.addHttp name url tok) = t) ∧
    (∀ t : UpstreamState, ∀ name c a e w, name ∈ backendNames t →
      add_stdio_server t name c a e w =
        .error (.serverConfig ("Server " ++ name ++ " already exists")) ∧
      applyOp t (.addStdio name c a e w) = t) ∧
    (∀ t : UpstreamState, ∀ name c a p hp sto e w, name ∈ backendNames t →
      add_service_server t name c a p hp sto e w =
        .error (.serverConfig ("Server " ++ name ++ " already exists")) ∧
      applyOp t (.addService name c a p hp sto e w) = t) ∧
    (∀ t : UpstreamState, ∀ name c a p hp sto e w,
      name ∉ backendNames t → p ∈ servicePorts t →
      (∃ msg, add_service_server t name c a p hp sto e w =
        .error (.serverConfig msg)) ∧
      applyOp t (.addService name c a p hp sto e w) = t) := by
  refine ⟨regInvariant_applyOps hinit ops, ?_, ?_, ?_, ?_⟩
  · intro t name url tok hmem
    have hex := serverExists_eq_true_of_mem hmem
    have herr : add_http_server t name url tok =
        .error (.serverConfig ("Server " ++ name ++ " already exists")) := by
      rw [add_http_server, if_pos (by simp [hex])]
    exact ⟨herr, by rw [applyOp, herr]⟩
  · intro t name c a e w hmem
    have hex := serverExists_eq_true_of_mem hmem
    have herr : add_stdio_server t name c a e w =
        .error (.serverConfig ("Server " ++ name ++ " already exists")) := by
      rw [add_stdio_server, if_pos (by simp [hex])]
    exact ⟨herr, by rw [applyOp, herr]⟩
  · intro t name c a p hp sto e w hmem
    have hex := serverExists_eq_true_of_mem hmem
    have herr : add_service_server t name c a p hp sto e w =
        .error (.serverConfig ("Server " ++ name ++ " already exists")) := by
      rw [add_service_server, if_pos (by simp [hex])]
    exact ⟨herr, by rw [applyOp, herr]⟩
  · intro t name c a p hp sto e w hname hport
    have hex : serverExists t name = false := serverExists_eq_false_iff.mpr hname
    have hfind : ∃ ex, t.service_servers.find? (fun q => q.2.port == p) = some ex := by
      rw [servicePorts, List.mem_map] at hport
      obtain ⟨q, hq, hqe⟩ := hport
      have : (t.service_servers.find? (fun q => q.2.port == p)).isSome := by
        rw [List.find?_isSome]
        exact ⟨q, hq, by simp [hqe]⟩
      exact Option.isSome_iff_exists.mp this
    obtain ⟨ex, hfind⟩ := hfind
    have herr : add_service_server t name c a p hp sto e w =
        .error (.serverConfig ("Port " ++ toString p ++ " is already used by service "
          ++ ex.1)) := by
      rw [add_service_server, if_neg (by simp [hex]), hfind]
    exact ⟨⟨_, herr⟩, by rw [applyOp, herr]⟩

/-- Witness for C1 at the default initial state and the spec's duplicate-add
scenario (`addHttp "dup"` then `addStdio "dup"`). -/
theorem claim_registry_unique_and_atomic_failure_witness :
    RegInvariant (applyOps initialState
      [.addHttp "dup" "http://u1" none, .addStdio "dup" "cmd" ["a"] [] none]) :=
  (claim_registry_unique_and_atomic_failure initialState (by decide)
    [.addHttp "dup" "http://u1" none, .addStdio "dup" "cmd" ["a"] [] none]).1

/-! ## Unknown request ids are silent no-ops (claim C10) -/

/-- C10: `start_request`, `complete_request` and `fail_request` with a
request id not present in the store raise no error and leave the store —
every tracker's fields and the insertion order — completely unchanged
(`if request_id in self.requests:` guards the whole body of each). -/
theorem claim_unknown_id_noop {V : Type} (s : TrackState V) (id : String)
    (h : id ∉ dictKeys s.requests) (v : V) (msg : String) (t : ℤ) :
    start_request s id t = s ∧ complete_request s id v t = s ∧
      fail_request s id msg t = s := by
  refine ⟨?_, ?_, ?_⟩ <;>
    simp only [start_request, complete_request, fail_request,
      dictUpdate_of_not_mem _ h]

/-- Witness for C10: a one-tracker store and a missing id. -/
theorem claim_unknown_id_noop_witness :
    ("r2" ∉ dictKeys (witnessTrackState.requests)) ∧
      start_request witnessTrackState "r2" 5 = witnessTrackState ∧
      complete_request witnessTrackState "r2" 7 5 = witnessTrackState ∧
      fail_request witnessTrackState "r2" "boom" 5 = witnessTrackState :=
  ⟨by decide, claim_unknown_id_noop witnessTrackState "r2" (by decide) 7 "boom" 5⟩

/-! ## Process teardown bookkeeping (claim C8) -/

theorem dictContains_dictDel_self {α : Type} (d : Dict α) (k : String) :
    dictContains (dictDel d k) k = false := by
  rw [dictContains_eq_false]
  intro hm
  rw [dictKeys, List.mem_map] at hm
  obtain ⟨p, hp, he⟩ := hm
  rw [dictDel, List.mem_filter] at hp
  simp [he] at hp

/-- C8 counterexample: after `cleanup_all_processes` on a state with one
tracked background process, the process entry is still in the
background-process map (the method terminates processes but never deletes
its bookkeeping entries), refuting "after stopAll() completes, no process
entry remains in the background-process map". -/
theorem claim_cleanup_counterexample :
    (cleanup_all_processes oneProcState).1.background_processes ≠ [] ∧
      (cleanup_all_processes oneProcState).1.background_processes =
        oneProcState.background_processes := by
  constructor
  · decide
  · rfl

/-- C8 as amended: `remove_server` always removes the backend's bookkeeping
entry from the background-process map, even when termination errors, and
`cleanup_all_processes` attempts a terminate-wait-kill on every tracked
process, continuing past individual failures — but it deletes nothing, so
the background-process map afterwards is exactly what it was; entries
disappear only through `remove_server`. -/
theorem claim_stop_bookkeeping :
    (∀ (s : UpstreamState) (name : String),
      dictContains (remove_server s name).1.background_processes name = false) ∧
    (∀ s : UpstreamState,
      (cleanup_all_processes s).2.map (fun p => p.1) =
        dictKeys s.background_processes ∧
      (cleanup_all_processes s).1 = s) := by
  constructor
  · intro s name
    exact dictContains_dictDel_self _ name
  · intro s
    constructor
    · rw [cleanup_all_processes, dictKeys, List.map_map]
      rfl
    · rfl

/-! ## Call result extraction (claim C3) -/

/-- C3: the value returned by a remote tool invocation is extracted with
strict priority — a non-null structured data payload is returned as-is;
otherwise, the texts of all blocks whose `text` attribute exists and is a
string are joined by a blank line; when no block qualifies (in particular
when there are no content blocks at all) the result is the "no value"
marker, which is distinct from an error. -/
theorem claim_result_extraction {D : Type} (r : CallToolResult D) :
    (∀ d, r.data = some d → extract_result r = .fromData d) ∧
    (r.data = none → textParts r.content ≠ [] →
      extract_result r =
        .fromText (String.intercalate "\n\n" (textParts r.content))) ∧
    (r.data = none → textParts r.content = [] →
      extract_result r = .noValue) := by
  refine ⟨?_, ?_, ?_⟩
  · intro d hd
    rw [extract_result, hd]
  · intro hd hne
    have hc : ¬r.content.isEmpty = true := by
      rw [List.isEmpty_iff]
      intro h0
      exact hne (by rw [h0]; rfl)
    rw [extract_result, hd]
    simp only [if_neg hc]
    rw [if_neg (by simpa [List.isEmpty_iff] using hne)]
  · intro hd hp
    rw [extract_result, hd]
    by_cases hc : r.content.isEmpty = true
    · simp only [if_pos hc]
    · simp only [if_neg hc]
      rw [if_pos (by simpa [List.isEmpty_iff] using hp)]

/-- Witness for C3: two qualifying blocks out of four give the blank-line
join; the attribute-less and non-string blocks are skipped. -/
theorem claim_result_extraction_witness :
    extract_result exampleCallResult = .fromText "x\n\ny" := by
  have h := (claim_result_extraction exampleCallResult).2.1 rfl (by decide)
  rw [h]
  rfl

/-! ## Discovery failure atomicity (claim C5) -/

/-- C5: whenever `discover_tools` fails — configuration lookup or any
transport/listing failure — the raised error is a `ToolDiscoveryError`
wrapping the cause, and neither the cached tool list nor the active client
config (indeed no part of the manager state) is modified. -/
theorem claim_discovery_failure_atomic (osEnv : Dict String) (s : UpstreamState)
    (server : String) (remote : Except String (List RemoteTool)) (e : MCPError)
    (h : (discover_tools osEnv s server remote).1 = .error e) :
    (∃ msg, e = .toolDiscovery msg) ∧
      (discover_tools osEnv s server remote).2 = s := by
  rcases hcfg : get_client_config osEnv s server with e1 | cfg
  · rw [discover_tools, hcfg] at h ⊢
    have h2 : Except.error (ε := MCPError) (α := List ToolDescriptor)
        (.toolDiscovery ("Failed to discover tools from " ++ server ++ ": "
          ++ errMsg e1)) = .error e := h
    exact ⟨⟨_, (Except.error.inj h2).symm⟩, rfl⟩
  · rw [discover_tools, hcfg] at h ⊢
    rcases remote with msg | tools
    · have h2 : Except.error (ε := MCPError) (α := List ToolDescriptor)
          (.toolDiscovery ("Failed to discover tools from " ++ server ++ ": "
            ++ msg)) = .error e := h
      exact ⟨⟨_, (Except.error.inj h2).symm⟩, rfl⟩
    · simp at h

/-- Witness for C5: discovery of an unregistered backend fails and leaves
the empty manager state unchanged. -/
theorem claim_discovery_failure_atomic_witness :
    (∃ msg,
      MCPError.toolDiscovery "Failed to discover tools from nope: Unknown server: nope"
        = .toolDiscovery msg) ∧
    (discover_tools [] ({} : UpstreamState) "nope" (.error "boom")).2 =
      ({} : UpstreamState) :=
  claim_discovery_failure_atomic [] ({} : UpstreamState) "nope" (.error "boom")
    (.toolDiscovery "Failed to discover tools from nope: Unknown server: nope")
    (by rfl)

/-! ## Statistics (claim C6) -/

/-- The statistics fold counts and sums exactly the trackers with status
`completed` and a recorded duration. -/
theorem stats_fold_spec {V : Type} (l : Dict (RequestTracker V)) (acc : StatsAcc) :
    (l.foldl (fun a p => statsStep a p.2) acc).completed_count
      = acc.completed_count +
        ((l.map (fun p => p.2)).filter
          (fun t => decide (t.status = .completed) && t.duration_ms.isSome)).length ∧
    (l.foldl (fun a p => statsStep a p.2) acc).total_duration
      = acc.total_duration +
        (((l.map (fun p => p.2)).filter
          (fun t => decide (t.status = .completed) && t.duration_ms.isSome)).map
            (fun t => t.duration_ms.getD 0)).sum := by
  induction l generalizing acc with
  | nil => simp
  | cons p rest ih =>
    rw [List.foldl_cons]
    obtain ⟨ihc, ihd⟩ := ih (statsStep acc p.2)
    by_cases hst : p.2.status = .completed
    · rcases hd : p.2.duration_ms with _ | d
      · have hacc : (statsStep acc p.2).completed_count = acc.completed_count := by
          rw [statsStep, if_pos hst, hd]
        have haccd : (statsStep acc p.2).total_duration = acc.total_duration := by
          rw [statsStep, if_pos hst, hd]
        constructor
        · rw [ihc, hacc, List.map_cons, List.filter_cons]
          simp [hst, hd]
        · rw [ihd, haccd, List.map_cons, List.filter_cons]
          simp [hst, hd]
      · have hacc : (statsStep acc p.2).completed_count = acc.completed_count + 1 := by
          rw [statsStep, if_pos hst, hd]
        have haccd : (statsStep acc p.2).total_duration = acc.total_duration + d := by
          rw [statsStep, if_pos hst, hd]
        constructor
        · rw [ihc, hacc, List.map_cons, List.filter_cons]
          simp [hst, hd]
          omega
        · rw [ihd, haccd, List.map_cons, List.filter_cons]
          simp [hst, hd]
          ring
    · have hacc : (statsStep acc p.2).completed_count = acc.completed_count := by
        rw [statsStep, if_neg hst]
      have haccd : (statsStep acc p.2).total_duration = acc.total_duration := by
        rw [statsStep, if_neg hst]
      constructor
      · rw [ihc, hacc, List.map_cons, List.filter_cons]
        simp [hst]
      · rw [ihd, haccd, List.map_cons, List.filter_cons]
        simp [hst]

/-- C6: `get_statistics` counts as `completed_requests` exactly the trackers
with status `completed` (failed trackers excluded) that have a recorded
duration, computes `average_duration_ms` only over those, and yields `0`
when `completed_requests` is `0`. -/
theorem claim_statistics_average {V : Type} (s : TrackState V) :
    (get_statistics s).completed_requests = (completedWithDuration s).length ∧
    ((get_statistics s).completed_requests = 0 →
      (get_statistics s).average_duration_ms = 0) ∧
    (0 < (get_statistics s).completed_requests →
      (get_statistics s).average_duration_ms =
        round2 (completedDurationSum s / ((completedWithDuration s).length : ℚ))) := by
  obtain ⟨hc, hd⟩ := stats_fold_spec s.requests
    { by_status := fun _ => 0, by_server := [], total_duration := 0,
      completed_count := 0 }
  have hcount : (get_statistics s).completed_requests =
      (completedWithDuration s).length := by
    rw [get_statistics]
    simpa [completedWithDuration] using hc
  refine ⟨hcount, ?_, ?_⟩
  · intro h0
    rw [hcount] at h0
    rw [get_statistics, if_neg]
    · rw [round2]
      norm_num
    · rw [hc]
      simp [completedWithDuration] at h0
      simp
      exact h0
  · intro hpos
    rw [hcount] at hpos
    rw [get_statistics, if_pos]
    · rw [hd, hc]
      rw [completedDurationSum, completedWithDuration]
      norm_num
    · rw [hc]
      simpa [completedWithDuration] using hpos

/-- Witness for C6 at the spec's example: one completed tracker (100ms) and
one failed tracker (50ms) give an average of 100 over 1 completed request. -/
theorem claim_statistics_average_witness :
    (get_statistics statsExampleState).completed_requests = 1 ∧
      (get_statistics statsExampleState).average_duration_ms = 100 := by
  obtain ⟨h1, _, h3⟩ := claim_statistics_average statsExampleState
  have hc : (get_statistics statsExampleState).completed_requests = 1 := by
    rw [h1]; rfl
  refine ⟨hc, ?_⟩
  have havg := h3 (by rw [hc]; norm_num)
  rw [havg]
  have hlen : ((completedWithDuration statsExampleState).length : ℚ) = 1 := by
    rw [show (completedWithDuration statsExampleState).length = 1 from rfl]
    norm_num
  have hfil : (completedWithDuration statsExampleState).map
      (fun t => t.duration_ms.getD 0) = [(100 : ℚ)] := rfl
  have hsum : completedDurationSum statsExampleState = 100 := by
    rw [completedDurationSum, hfil]
    simp
  rw [hlen, hsum, round2]
  norm_num

/-! ## Insertion-order eviction of the tracking store (claim C2) -/

/-- One `create_request` on a store whose entries are all as fresh as the
clock: the age pass evicts nothing and the size pass drops exactly the
oldest-inserted entries beyond `max_size`, from the front. -/
theorem create_request_requests_eq {V : Type} (s : TrackState V) (id : String)
    (now : ℤ) (hfresh : id ∉ dictKeys s.requests) (hr : 0 ≤ s.retention_hours)
    (hages : ∀ p ∈ s.requests, p.2.created_at = now) :
    (create_request s id "srv" "tool" [] none none now).requests
      = (s.requests ++ [(id, newTracker id "srv" "tool" [] none none now)]).drop
          (s.requests.length + 1 - s.max_size) := by
  rw [create_request, cleanup_old_requests]
  simp only
  rw [dictSet_eq_append _ hfresh]
  have hkeep : ∀ p ∈ s.requests ++ [(id, newTracker (V := V) id "srv" "tool" [] none none now)],
      (!(decide (p.2.created_at < now - 3600 * s.retention_hours))) = true := by
    intro p hp
    have hcreated : p.2.created_at = now := by
      rcases List.mem_append.mp hp with h | h
      · exact hages p h
      · simp at h
        subst h
        rfl
    simp [hcreated]
    nlinarith [hr]
  rw [List.filter_eq_self.mpr hkeep]
  simp

/-- Folding `create_request` over fresh ids: the surviving keys are the
suffix of the insertion sequence that fits in `max_size`. -/
theorem createMany_keys {V : Type} :
    ∀ (ids : List String) (s : TrackState V) (now : ℤ),
    0 ≤ s.retention_hours →
    (∀ p ∈ s.requests, p.2.created_at = now) →
    (dictKeys s.requests ++ ids).Nodup →
    s.requests.length ≤ s.max_size →
    dictKeys (createMany s ids now).requests
      = (dictKeys s.requests ++ ids).drop
          (s.requests.length + ids.length - s.max_size) := by
  intro ids
  induction ids with
  | nil =>
    intro s now _ _ _ hlen
    rw [createMany, List.foldl_nil, List.append_nil]
    rw [Nat.sub_eq_zero_of_le (by simp only [List.length_nil]; omega), List.drop_zero]
  | cons id rest ih =>
    intro s now hr hages hnd hlen
    have hfresh : id ∉ dictKeys s.requests := by
      have hdisj := (List.nodup_append.mp hnd).2.2
      exact fun hm => hdisj hm (List.mem_cons_self _ _)
    have hstep := create_request_requests_eq s id now hfresh hr hages
    set s1 := create_request s id "srv" "tool" [] none none now with hs1
    set tr : RequestTracker V := newTracker id "srv" "tool" [] none none now with htr
    set d := s.requests.length + 1 - s.max_size with hd
    have hmax1 : s1.max_size = s.max_size := rfl
    have hret1 : s1.retention_hours = s.retention_hours := rfl
    have hlen1 : s1.requests.length = s.requests.length + 1 - d := by
      rw [hstep, List.length_drop]
      simp
    have hkeys1 : dictKeys s1.requests = (dictKeys s.requests ++ [id]).drop d := by
      rw [hstep, dictKeys_drop, dictKeys_append]
      rfl
    have hages1 : ∀ p ∈ s1.requests, p.2.created_at = now := by
      intro p hp
      rw [hstep] at hp
      have hp2 := List.mem_of_mem_drop hp
      rcases List.mem_append.mp hp2 with h | h
      · exact hages p h
      · simp at h
        subst h
        rfl
    have hnd1 : (dictKeys s1.requests ++ rest).Nodup := by
      have hsub : (dictKeys s1.requests ++ rest).Sublist
          ((dictKeys s.requests ++ [id]) ++ rest) := by
        rw [hkeys1]
        exact (List.drop_sublist _ _).append (List.Sublist.refl rest)
      refine hsub.nodup ?_
      rw [List.append_assoc, List.singleton_append]
      exact hnd
    have hsize1 : s1.requests.length ≤ s1.max_size := by
      rw [hmax1, hlen1, hd]
      omega
    rw [createMany, List.foldl_cons, ← hs1]
    have hihres := ih s1 now (by rw [hret1]; exact hr) hages1 hnd1 hsize1
    rw [createMany] at hihres
    rw [hihres, hkeys1, hmax1]
    have hd_le : d ≤ (dictKeys s.requests ++ [id]).length := by
      rw [List.length_append, dictKeys_length, List.length_singleton]
      omega
    have hsplit : (dictKeys s.requests ++ [id] ++ rest).drop d
        = (dictKeys s.requests ++ [id]).drop d ++ rest := by
      rw [List.drop_append_eq_append_drop, Nat.sub_eq_zero_of_le hd_le,
        List.drop_zero]
    rw [← hsplit, List.drop_drop]
    have harith : d + (s1.requests.length + rest.length - s.max_size)
        = s.requests.length + (id :: rest).length - s.max_size := by
      rw [hlen1, List.length_cons]
      omega
    rw [harith, List.append_assoc, List.singleton_append]

/-- C2: housekeeping on every create evicts by age first, then by strict
insertion order; inserting `maxSize + k` fresh trackers into an empty store
with no age eviction in play leaves exactly `maxSize` trackers, and they
are the most recently inserted ones (`ids.drop k`); reads never touch the
order. -/
theorem claim_tracking_lru (V : Type) (m k : Nat) (r now : ℤ) (ids : List String)
    (hr : 0 ≤ r) (hnd : ids.Nodup) (hlen : ids.length = m + k) :
    dictKeys (createMany (emptyTrack V m r) ids now).requests = ids.drop k ∧
    (createMany (emptyTrack V m r) ids now).requests.length = m := by
  have h := createMany_keys ids (emptyTrack V m r) now
    hr (by intro p hp; cases hp) (by simpa [emptyTrack, dictKeys] using hnd)
    (by simp [emptyTrack])
  rw [show dictKeys (emptyTrack V m r).requests = [] from rfl] at h
  rw [List.nil_append] at h
  have h2 : dictKeys (createMany (emptyTrack V m r) ids now).requests
      = ids.drop k := by
    rw [h]
    rw [show (emptyTrack V m r).requests.length = 0 from rfl]
    rw [show (emptyTrack V m r).max_size = m from rfl]
    rw [hlen]
    have hmk : 0 + (m + k) - m = k := by omega
    rw [hmk]
  refine ⟨h2, ?_⟩
  have hlength := congrArg List.length h2
  rw [dictKeys_length, List.length_drop, hlen] at hlength
  omega

/-- Witness for C2 with `maxSize = 2`, `k = 1`: after three inserts only the
last two ids remain. -/
theorem claim_tracking_lru_witness :
    dictKeys (createMany (emptyTrack ℕ 2 24) ["a", "b", "c"] 0).requests
      = ["a", "b", "c"].drop 1 ∧
    (createMany (emptyTrack ℕ 2 24) ["a", "b", "c"] 0).requests.length = 2 :=
  claim_tracking_lru ℕ 2 1 24 0 ["a", "b", "c"] (by decide) (by decide) rfl

/-! ## Mutation of terminal trackers (claim C9) -/

/-- C9 counterexample: the store has no terminal-state guard.  On a store
whose tracker `"r1"` is `completed`, a later `start_request "r1"` moves it
back to `in_progress` and overwrites `started_at` — a tracker in terminal
status IS mutated by a subsequent operation, refuting the claim as stated. -/
theorem claim_terminal_immutable_counterexample :
    (get_request witnessTrackState "r1").map (fun t => t.status)
        = some .completed ∧
    (get_request (start_request witnessTrackState "r1" 3) "r1").map
        (fun t => t.status) = some .in_progress ∧
    (get_request (start_request witnessTrackState "r1" 3) "r1").map
        (fun t => t.started_at)
      ≠ (get_request witnessTrackState "r1").map (fun t => t.started_at) := by
  refine ⟨rfl, rfl, ?_⟩
  decide

/-- C9 as amended: a tracker — in particular one in terminal status — is
never mutated by `start_request`/`complete_request`/`fail_request` calls
bearing a different request id, nor by another `create_request`'s
housekeeping, which can only evict it whole (lookup afterwards is either
`none` or the unchanged tracker); the store however enforces no
terminal-state guard, so a `start`/`complete`/`fail` call re-using the same
id does mutate the tracker (see the counterexample). -/
theorem claim_terminal_amended {V : Type} (s : TrackState V) (id other : String)
    (hneq : other ≠ id) (t t2 : ℤ) (v : V) (msg : String)
    (sv tl : String) (args : Dict V) (cip sid : Option String) :
    get_request (start_request s other t) id = get_request s id ∧
    get_request (complete_request s other v t) id = get_request s id ∧
    get_request (fail_request s other msg t) id = get_request s id ∧
    ((dictKeys s.requests).Nodup → other ∉ dictKeys s.requests →
     (get_request (create_request s other sv tl args cip sid t2) id = none ∨
      get_request (create_request s other sv tl args cip sid t2) id
        = get_request s id)) := by
  have hneq2 : id ≠ other := Ne.symm hneq
  refine ⟨?_, ?_, ?_, ?_⟩
  · simp only [get_request, start_request]
    exact dictGet_dictUpdate_ne _ _ hneq2
  · simp only [get_request, complete_request]
    exact dictGet_dictUpdate_ne _ _ hneq2
  · simp only [get_request, fail_request]
    exact dictGet_dictUpdate_ne _ _ hneq2
  · intro hnd hfresh
    rcases hlook : get_request (create_request s other sv tl args cip sid t2) id
      with _ | v2
    · exact Or.inl rfl
    · refine Or.inr ?_
      have hmem : (id, v2) ∈ (create_request s other sv tl args cip sid t2).requests :=
        dictGet_mem hlook
      rw [create_request, cleanup_old_requests] at hmem
      simp only at hmem
      have hmem2 := List.mem_of_mem_drop hmem
      have hmem3 := (List.mem_filter.mp hmem2).1
      rw [dictSet_eq_append _ hfresh] at hmem3
      rcases List.mem_append.mp hmem3 with h | h
      · exact (dictGet_eq_some_of_mem h hnd).symm
      · simp at h
        exact absurd h.1 hneq2

/-- Witness for C9's amended theorem on a store where `"r1"` is terminal and
`"r2"` is a live tracker: start/complete/fail calls on the live id `"r2"`
leave `"r1"` untouched, and a create with the fresh id `"r3"` can at most
evict `"r1"` whole. -/
theorem claim_terminal_amended_witness :
    get_request (start_request twoTrackState "r2" 3) "r1"
      = get_request twoTrackState "r1" ∧
    get_request (complete_request twoTrackState "r2" 9 3) "r1"
      = get_request twoTrackState "r1" ∧
    get_request (fail_request twoTrackState "r2" "boom" 3) "r1"
      = get_request twoTrackState "r1" ∧
    (get_request (create_request twoTrackState "r3" "s9" "t9" [] none none 3) "r1"
       = none ∨
     get_request (create_request twoTrackState "r3" "s9" "t9" [] none none 3) "r1"
       = get_request twoTrackState "r1") := by
  obtain ⟨h1, h2, h3, _⟩ := claim_terminal_amended twoTrackState "r1" "r2"
    (by decide) 3 3 9 "boom" "s9" "t9" [] none none
  obtain ⟨_, _, _, h4⟩ := claim_terminal_amended twoTrackState "r1" "r3"
    (by decide) 3 3 9 "boom" "s9" "t9" [] none none
  exact ⟨h1, h2, h3, h4 (by decide) (by decide)⟩

/-! ## The tracking-coupled call router on failure (claim C4) -/

/-- Looking up the freshly created tracker right after `create_request`:
with a fresh id, a positive capacity and a non-negative retention the new
entry survives housekeeping and is found. -/
theorem get_request_create_self {V : Type} (s : TrackState V) (id sv tl : String)
    (args : Dict V) (cip sid : Option String) (now : ℤ)
    (hfresh : id ∉ dictKeys s.requests) (hmax : 1 ≤ s.max_size)
    (hr : 0 ≤ s.retention_hours) :
    get_request (create_request s id sv tl args cip sid now) id
      = some (newTracker id sv tl args cip sid now) := by
  rw [get_request, create_request, cleanup_old_requests]
  simp only
  rw [dictSet_eq_append _ hfresh]
  rw [List.filter_append]
  have hnewkeep : List.filter
      (fun p => !(decide (p.2.created_at < now - 3600 * s.retention_hours)))
      [(id, newTracker (V := V) id sv tl args cip sid now)]
      = [(id, newTracker id sv tl args cip sid now)] := by
    rw [List.filter_eq_self]
    intro p hp
    simp at hp
    subst hp
    simp [newTracker]
    nlinarith [hr]
  rw [hnewkeep]
  set B := List.filter
    (fun p => !(decide (p.2.created_at < now - 3600 * s.retention_hours)))
    s.requests with hB
  set n := (B ++ [(id, newTracker (V := V) id sv tl args cip sid now)]).length
    - s.max_size with hn
  have hn_le : n ≤ B.length := by
    rw [hn, List.length_append, List.length_singleton]
    omega
  rw [List.drop_append_eq_append_drop, Nat.sub_eq_zero_of_le hn_le, List.drop_zero]
  have hid_not : id ∉ dictKeys (B.drop n) := by
    intro hm
    apply hfresh
    have hsub : (dictKeys (B.drop n)).Sublist (dictKeys s.requests) := by
      refine List.Sublist.map _ ?_
      exact (List.drop_sublist _ _).trans (List.filter_sublist _)
    exact hsub.mem hm
  rw [dictGet_append_right _ hid_not]
  exact dictGet_singleton _ _

/-- C4 (the router itself is absent from the snapshot; see
`call_tool_tracked`): when the remote invocation inside the tracked call
raises, the tracker is transitioned to `failed` with the error message and
the measured duration, and the failure is re-raised as `ToolExecutionError`. -/
theorem claim_call_failure_tracks {V : Type} (clients : Dict ClientConfig)
    (ts : TrackState V) (server tool : String) (args : Dict V)
    (cip sid : Option String) (request_id : String) (t0 t1 t2 : ℤ) (emsg : String)
    (hserver : dictContains clients server = true)
    (hfresh : request_id ∉ dictKeys ts.requests)
    (hmax : 1 ≤ ts.max_size) (hr : 0 ≤ ts.retention_hours) :
    (call_tool_tracked clients ts server tool args cip sid request_id t0 t1 t2
        (.error emsg)).1
      = .error (.toolExecution ("Tool execution failed: " ++ emsg)) ∧
    get_request (call_tool_tracked clients ts server tool args cip sid request_id
        t0 t1 t2 (.error emsg)).2 request_id
      = some { newTracker (V := V) request_id server tool args cip sid t0 with
               status := .failed, started_at := some t1, completed_at := some t2,
               error := some emsg,
               duration_ms := some (((t2 - t1 : ℤ) : ℚ) * 1000) } := by
  rw [call_tool_tracked, if_pos (by rw [hserver])]
  refine ⟨rfl, ?_⟩
  simp only
  rw [get_request, fail_request]
  simp only
  rw [dictGet_dictUpdate_self, start_request]
  simp only
  rw [dictGet_dictUpdate_self]
  have hcreate := get_request_create_self ts request_id server tool args cip sid t0
    hfresh hmax hr
  rw [get_request] at hcreate
  rw [hcreate]
  rfl

/-- Witness for C4: a concrete failing call marks the tracker failed with
the message and duration, and surfaces a `ToolExecutionError`. -/
theorem claim_call_failure_tracks_witness :
    (call_tool_tracked [("alpha", .http "http://u" none)] (emptyTrack ℕ 5 24)
        "alpha" "echo" [] none none "rq1" 10 11 13 (.error "boom")).1
      = .error (.toolExecution ("Tool execution failed: " ++ "boom")) ∧
    get_request (call_tool_tracked [("alpha", .http "http://u" none)]
        (emptyTrack ℕ 5 24) "alpha" "echo" [] none none "rq1" 10 11 13
        (.error "boom")).2 "rq1"
      = some { newTracker (V := ℕ) "rq1" "alpha" "echo" [] none none 10 with
               status := .failed, started_at := some 11, completed_at := some 13,
               error := some "boom",
               duration_ms := some (((13 - 11 : ℤ) : ℚ) * 1000) } :=
  claim_call_failure_tracks [("alpha", .http "http://u" none)] (emptyTrack ℕ 5 24)
    "alpha" "echo" [] none none "rq1" 10 11 13 "boom" (by decide) (by decide)
    (by decide) (by decide)

/-! ## Service startup polling (claim C7) -/

theorem triggers_eq_false_parts {o : HealthObs} (h : triggers o = false) :
    o.exited = false ∧ ∀ code, o.http = some code → ¬code < 500 := by
  rw [triggers, Bool.or_eq_false_iff] at h
  refine ⟨h.1, ?_⟩
  intro code hc hlt
  have h2 := h.2
  rw [hc] at h2
  simp at h2
  omega

/-- If no iteration before the deadline triggers, the poll loop times out. -/
theorem pollLoop_no_trigger (obs : Nat → HealthObs) :
    ∀ (remaining i : Nat),
    (∀ j, j < remaining → triggers (obs (i + j)) = false) →
    pollLoop obs i remaining = .timedOut := by
  intro remaining
  induction remaining with
  | zero => intro i _; rfl
  | succ r ihr =>
    intro i hno
    obtain ⟨hex, hcode⟩ := triggers_eq_false_parts
      (by simpa using hno 0 (by omega))
    have hrest : ∀ j, j < r → triggers (obs (i + 1 + j)) = false := by
      intro j hj
      have := hno (j + 1) (by omega)
      rwa [show i + (j + 1) = i + 1 + j by omega] at this
    simp only [pollLoop, hex]
    rcases hh : (obs i).http with _ | code
    · simp only [Bool.false_eq_true, if_false]
      exact ihr (i + 1) hrest
    · simp only [Bool.false_eq_true, if_false]
      rw [if_neg (by simpa using hcode code hh)]
      exact ihr (i + 1) hrest

/-- The poll loop stops at the first triggering iteration: with the process
found dead it reports death, otherwise a `< 500` health response reports
readiness. -/
theorem pollLoop_first_trigger (obs : Nat → HealthObs) :
    ∀ (n remaining i : Nat), n < remaining →
    (∀ j, j < n → triggers (obs (i + j)) = false) →
    triggers (obs (i + n)) = true →
    pollLoop obs i remaining
      = (if (obs (i + n)).exited then .died else .ready) := by
  intro n
  induction n with
  | zero =>
    intro remaining i hlt hpre htr
    rcases remaining with _ | r
    · omega
    rw [show i + 0 = i from rfl] at htr ⊢
    rcases he : (obs i).exited with _ | _
    · have hready : ∃ code, (obs i).http = some code ∧ code < 500 := by
        rw [triggers, he] at htr
        simp at htr
        rcases hh : (obs i).http with _ | code
        · rw [hh] at htr; simp at htr
        · rw [hh] at htr
          simp at htr
          exact ⟨code, rfl, htr⟩
      obtain ⟨code, hh, hc⟩ := hready
      simp only [pollLoop, he, hh]
      simp [hc]
    · simp only [pollLoop, he]
      simp
  | succ n ihn =>
    intro remaining i hlt hpre htr
    rcases remaining with _ | r
    · omega
    obtain ⟨hex, hcode⟩ := triggers_eq_false_parts
      (by simpa using hpre 0 (by omega))
    have hpre2 : ∀ j, j < n → triggers (obs (i + 1 + j)) = false := by
      intro j hj
      have := hpre (j + 1) (by omega)
      rwa [show i + (j + 1) = i + 1 + j by omega] at this
    have htr2 : triggers (obs (i + 1 + n)) = true := by
      rwa [show i + (n + 1) = i + 1 + n by omega] at htr
    have hres := ihn r (i + 1) (by omega) hpre2 htr2
    rw [show i + (n + 1) = i + 1 + n by omega]
    simp only [pollLoop, hex]
    rcases hh : (obs i).http with _ | code
    · simp only [Bool.false_eq_true, if_false]
      exact hres
    · simp only [Bool.false_eq_true, if_false]
      rw [if_neg (by simpa using hcode code hh)]
      exact hres

/-- C7: the supervised startup returns `false` immediately (with no
termination attempt) when the process has exited before becoming ready;
returns `true` as soon as a health-check GET yields any status `< 500`
before the deadline (connection failures and `>= 500` statuses are
swallowed and retried on the 1-second cadence); and on deadline expiry
without readiness performs terminate-wait-kill on the process and returns
`false`. -/
theorem claim_service_startup (p : ProcHandle) (timeout : Nat)
    (obs : Nat → HealthObs) :
    (∀ i, i < timeout → (∀ j, j < i → triggers (obs j) = false) →
      (obs i).exited = true →
      start_service p timeout obs = (false, none)) ∧
    (∀ i code, i < timeout → (∀ j, j < i → triggers (obs j) = false) →
      (obs i).exited = false → (obs i).http = some code → code < 500 →
      start_service p timeout obs = (true, none)) ∧
    ((∀ i, i < timeout → triggers (obs i) = false) →
      start_service p timeout obs = (false, some (stopProcess p))) := by
  refine ⟨?_, ?_, ?_⟩
  · intro i hi hpre hex
    have h := pollLoop_first_trigger obs i timeout 0 hi
      (by intro j hj; simpa using hpre j hj)
      (by rw [show 0 + i = i from by omega, triggers, hex]; rfl)
    rw [show (0 : Nat) + i = i from by omega, hex] at h
    rw [start_service, h]
    rfl
  · intro i code hi hpre hex hhttp hcode
    have h := pollLoop_first_trigger obs i timeout 0 hi
      (by intro j hj; simpa using hpre j hj)
      (by
        rw [show 0 + i = i from by omega, triggers, hex, hhttp]
        simpa using hcode)
    rw [show (0 : Nat) + i = i from by omega, hex] at h
    rw [start_service, h]
    rfl
  · intro hall
    have h := pollLoop_no_trigger obs timeout 0
      (by intro j hj; simpa using hall j hj)
    rw [start_service, h]

/-- Witness for C7: with a three-iteration window where the first check
fails to connect and the second yields a 200 response, startup reports
ready; the shape of the observation stream drives the outcome. -/
theorem claim_service_startup_witness :
    start_service { pid := 1, term := .ok } 3
      (fun i => if i = 0 then { exited := false, http := none }
                else { exited := false, http := some 200 })
      = (true, none) :=
  (claim_service_startup { pid := 1, term := .ok } 3
      (fun i => if i = 0 then { exited := false, http := none }
                else { exited := false, http := some 200 })).2.1
    1 200 (by omega)
    (by
      intro j hj
      have hj0 : j = 0 := by omega
      subst hj0
      decide)
    (by decide) (by decide) (by omega)

end MCPAgg
